import Mathlib

/-!
Verification of the Symmetry454 calendar implementation
(`symmetric_calendar/date.py` and `symmetric_calendar/date_time.py`).

The Python source is shallowly embedded: machine integers become `ℤ`
(Python integers are unbounded, so no wrap-around modelling is needed),
Python `%` / `//` on positive divisors coincide with Lean's Euclidean
`%` / `/` on `ℤ`, `assert` statements and `raise` become `Except String`
failures, and the host `datetime.date` object cached on a date is
modelled by its proleptic-Gregorian ordinal (an `Option ℤ`).

Python computes `math.ceil(x / y)` and `math.floor(x / y)` through IEEE
doubles; over the operating ranges of this program those doubles are
exact enough that the result equals the exact rational ceiling/floor,
which is how the operations are embedded (`ceildiv` below, with a
bridging lemma to the rational ceiling; `math.floor((52*y+146)/293)`
becomes Euclidean `/` by the positive constant 293).
-/

/-- Ceiling division by a positive divisor: `ceildiv a b = ⌈a / b⌉`.
Embeds Python `math.ceil(a / b)` (exact-rational model of the float). -/
def ceildiv (a b : ℤ) : ℤ := -(-a / b)

deriving instance DecidableEq for Except

-- date.py module constants
def MINYEAR : ℤ := 1

def MAXYEAR : ℤ := 9998

def MAXORDINAL : ℤ := 3651690

def EPOCH : ℤ := 1

def HOLOCENE_MAXYEAR : ℤ := 19998

def HOLOCENE_EPOCH : ℤ := -3652424

def POSIX_EPOCH : ℤ := 719163

/-- `CYCLE_MEAN_YEAR = 365 + (71 / 293)` as an exact rational. -/
def CYCLE_MEAN_YEAR : ℚ := 365 + 71 / 293

/-- `DAYS_IN_MONTH`; index 0 holds the `-1` placeholder, as in the source. -/
def DAYS_IN_MONTH : List ℤ := [-1, 28, 35, 28, 28, 35, 28, 28, 35, 28, 28, 35, 28]

/-- The module-level loop accumulating `DAYS_BEFORE_MONTH` from
`DAYS_IN_MONTH[1:]`. -/
def cumulDaysBefore : List ℤ → ℤ → List ℤ
  | [], _ => []
  | d :: rest, acc => acc :: cumulDaysBefore rest (acc + d)

/-- `DAYS_BEFORE_MONTH`; index 0 holds the `-1` placeholder. -/
def DAYS_BEFORE_MONTH : List ℤ := -1 :: cumulDaysBefore (DAYS_IN_MONTH.drop 1) 0

/-- `_is_leap(year, holocene)`: 7 if leap year, else 0.  The source
writes the test as `((year * 52) + 146) % 293 < 52`; the product is
written `52 * year` here, in the operand order `_days_before_year` uses. -/
def _is_leap (year : ℤ) (holocene : Bool) : ℤ :=
  let year := if holocene then year - 10000 else year
  if (52 * year + 146) % 293 < 52 then 7 else 0

/-- `_days_before_year(year, holocene)`: number of days before January 1st
of `year`.  `math.floor(((52 * year) + 146) / 293)` is embedded as exact
floor division by the positive constant 293. -/
def _days_before_year (year : ℤ) (holocene : Bool) : ℤ :=
  let year := year - 1
  let year := if holocene then year - 10000 else year
  364 * year + 7 * ((52 * year + 146) / 293)

/-- `_days_in_month(year, month, holocene)`; the `assert 1 <= month <= 12`
becomes an `Except` failure. -/
def _days_in_month (year month : ℤ) (holocene : Bool) : Except String ℤ :=
  if ¬(1 ≤ month ∧ month ≤ 12) then .error "month out of range"
  else if month = 12 ∧ _is_leap year holocene ≠ 0 then .ok 35
  else .ok (DAYS_IN_MONTH.getD month.toNat 0)

/-- `_days_before_month(month)`; the `assert 1 <= month <= 12` becomes an
`Except` failure. -/
def _days_before_month (month : ℤ) : Except String ℤ :=
  if ¬(1 ≤ month ∧ month ≤ 12) then .error "month must be in 1..12"
  else .ok (DAYS_BEFORE_MONTH.getD month.toNat 0)

/-- `_year_month_day_to_ordinal(year, month, day, holocene)` with its
`assert`s modelled as `Except` failures. -/
def _year_month_day_to_ordinal (year month day : ℤ) (holocene : Bool) :
    Except String ℤ :=
  if ¬(1 ≤ month ∧ month ≤ 12) then .error "month must be in 1..12"
  else do
    let days_in_month ← _days_in_month year month holocene
    if ¬(1 ≤ day ∧ day ≤ days_in_month) then .error "day out of range"
    else do
      let days_before_month ← _days_before_month month
      return _days_before_year year holocene + days_before_month + day

/-- `_first_day_year(year)`.  NOTE: the source calls
`_days_before_year(year)` without forwarding any `holocene` flag, so the
default `False` is used here exactly as in the source. -/
def _first_day_year (year : ℤ) : ℤ := _days_before_year year false + 1

/-- `_ordinal_to_year(ordinal_date)`:
`math.ceil((ordinal_date - EPOCH) / CYCLE_MEAN_YEAR)`, with the float
computation embedded exactly: dividing by `CYCLE_MEAN_YEAR = 107016/293`
is multiplying by `293/107016`. -/
def _ordinal_to_year (ordinal_date : ℤ) : ℤ :=
  ceildiv (293 * (ordinal_date - EPOCH)) 107016

/-- `_ordinal_to_year_month_day(ordinal_date, holocene)`.  The year
correction, the week/quarter/month ceilings and the final collapse of
month 13 into December follow the source line by line; the `assert`
inside `_days_before_month` becomes an `Except` failure. -/
def _ordinal_to_year_month_day (ordinal_date : ℤ) (holocene : Bool) :
    Except String (ℤ × ℤ × ℤ × ℤ × ℤ) :=
  let year0 := _ordinal_to_year ordinal_date
  let year1 := if holocene then year0 + 10000 else year0
  -- the correction block: (year, first_day_year) after the if/elif
  let p : ℤ × ℤ :=
    if _first_day_year year1 < ordinal_date then
      if 364 ≤ ordinal_date - _first_day_year year1 then
        if _first_day_year (year1 + 1) ≤ ordinal_date then
          (year1 + 1, _first_day_year (year1 + 1))
        else (year1, _first_day_year year1)
      else (year1, _first_day_year year1)
    else if ordinal_date < _first_day_year year1 then
      (year1 - 1, _first_day_year (year1 - 1))
    else (year1, _first_day_year year1)
  let year := p.1
  let first_day_year := p.2
  let day_in_year := ordinal_date - first_day_year + 1
  let week_in_year := ceildiv day_in_year 7
  let quarter := ceildiv (4 * week_in_year) 53
  let day_in_quarter := day_in_year - 91 * (quarter - 1)
  let week_in_quarter := ceildiv day_in_quarter 7
  let month_in_quarter := ceildiv (2 * week_in_quarter) 9
  let month0 := 3 * (quarter - 1) + month_in_quarter
  let month := if month0 = 13 then 12 else month0
  match _days_before_month month with
  | .error e => .error e
  | .ok days_before_month =>
      .ok (year, month, day_in_year - days_before_month, day_in_year,
           week_in_year)

/-- The year-correction stage of `_ordinal_to_year_month_day` for the
default era, isolated for the proofs; its body is exactly the
corresponding fragment of the source with `holocene = False`. -/
def decodeYearPair (o : ℤ) : ℤ × ℤ :=
  let year1 := _ordinal_to_year o
  if _first_day_year year1 < o then
    if 364 ≤ o - _first_day_year year1 then
      if _first_day_year (year1 + 1) ≤ o then
        (year1 + 1, _first_day_year (year1 + 1))
      else (year1, _first_day_year year1)
    else (year1, _first_day_year year1)
  else if o < _first_day_year year1 then
    (year1 - 1, _first_day_year (year1 - 1))
  else (year1, _first_day_year year1)

/-- Pure lookup of `DAYS_BEFORE_MONTH[month]`. -/
def dbmVal (month : ℤ) : ℤ := DAYS_BEFORE_MONTH.getD month.toNat 0

/-- Pure lookup of `DAYS_IN_MONTH[month]`. -/
def dimVal (month : ℤ) : ℤ := DAYS_IN_MONTH.getD month.toNat 0

/-- The value `_days_in_month` returns on a valid month. -/
def dimPure (year month : ℤ) (holocene : Bool) : ℤ :=
  if month = 12 ∧ _is_leap year holocene ≠ 0 then 35 else dimVal month

/-- The week/quarter/month chain of the decoder as a function of the day
of the year alone (the source computes exactly this chain inline). -/
def monthOf (day_in_year : ℤ) : ℤ :=
  let week_in_year := ceildiv day_in_year 7
  let quarter := ceildiv (4 * week_in_year) 53
  let day_in_quarter := day_in_year - 91 * (quarter - 1)
  let week_in_quarter := ceildiv day_in_quarter 7
  let month_in_quarter := ceildiv (2 * week_in_quarter) 9
  let month0 := 3 * (quarter - 1) + month_in_quarter
  if month0 = 13 then 12 else month0

/-- The decoder's fields, isolated. -/
def decodeDiy (o : ℤ) : ℤ := o - (decodeYearPair o).2 + 1

def decodeY (o : ℤ) : ℤ := (decodeYearPair o).1

def decodeM (o : ℤ) : ℤ := monthOf (decodeDiy o)

def decodeD (o : ℤ) : ℤ := decodeDiy o - dbmVal (decodeM o)

/-- `_check_date_fields(year, month, day, holocene)`; each `raise
ValueError` becomes an `Except` failure, in source order. -/
def _check_date_fields (year month day : ℤ) (holocene : Bool) :
    Except String (ℤ × ℤ × ℤ) :=
  if holocene ∧ ¬(MINYEAR ≤ year ∧ year ≤ HOLOCENE_MAXYEAR) then
    .error "Year must be in 1..19998"
  else if ¬holocene ∧ ¬(MINYEAR ≤ year ∧ year ≤ MAXYEAR) then
    .error "Year must be in 1..9998"
  else if ¬(1 ≤ month ∧ month ≤ 12) then .error "Month must be in 1..12"
  else do
    let days_in_month ← _days_in_month year month holocene
    if ¬(1 ≤ day ∧ day ≤ days_in_month) then .error "Day must be in 1..days_in_month"
    else .ok (year, month, day)

/-- A constructed `SymmetricDate`: the `__slots__` `_year`, `_month`,
`_day`, `_ordinal_date`, `_holocene`, `_is_leap` and `_gregorian_date`.
The cached host `datetime.date` is modelled by its proleptic-Gregorian
ordinal (`none` when the source stores `None`); `_hashcode` is a lazy
memo of a deterministic function and is not modelled separately. -/
structure SymmetricDate where
  year : ℤ
  month : ℤ
  day : ℤ
  ordinalDate : ℤ
  holocene : Bool
  isLeap : ℤ
  gregorianDate : Option ℤ

deriving DecidableEq

/-- `SymmetricDate.__new__` on the `(year, month, day, holocene)` path:
validate, store the fields, cache the ordinal and leap flag, and cache
the host Gregorian date (absent for Holocene years before 10001). -/
def SymmetricDate.new (year month day : ℤ) (holocene : Bool) :
    Except String SymmetricDate := do
  let _ ← _check_date_fields year month day holocene
  let o ← _year_month_day_to_ordinal year month day holocene
  let greg : Option ℤ :=
    if ¬holocene then some o
    else if year ≥ 10001 then some o
    else none
  return ⟨year, month, day, o, holocene, _is_leap year holocene, greg⟩

def SymmetricDate.toordinal (d : SymmetricDate) : ℤ := d.ordinalDate

/-- The `gregorian_date` property: the cached host date or a
`ValueError` for Holocene dates outside the host range. -/
def SymmetricDate.gregorian_date (d : SymmetricDate) : Except String ℤ :=
  match d.gregorianDate with
  | some g => .ok g
  | none => .error "Holocene date outside Python date range"

/-- `_cmp`: three-way comparison of the cached ordinals. -/
def SymmetricDate._cmp (d other : SymmetricDate) : ℤ :=
  if d.toordinal = other.toordinal then 0
  else if d.toordinal > other.toordinal then 1
  else -1

/-- `__eq__` via `_cmp`. -/
def SymmetricDate.equals (a b : SymmetricDate) : Bool := a._cmp b == 0

/-- `_getstate` packs the bytes of `self.gregorian_date` (raising for a
missing host date); hash equality of those bytes is hash equality of the
Gregorian ordinal, which is how `__hash__` is modelled. -/
def SymmetricDate.hashKey (d : SymmetricDate) : Except String ℤ :=
  d.gregorian_date

/-- `fromordinal`: decode, then construct (re-validating). -/
def SymmetricDate.fromordinal (ordinal_date : ℤ) (holocene : Bool) :
    Except String SymmetricDate := do
  let t ← _ordinal_to_year_month_day ordinal_date holocene
  SymmetricDate.new t.1 t.2.1 t.2.2.1 holocene

/-- `__add__` with a `timedelta` argument (its `days` field is the
integer here).  The source body references the name `timedelta`, which
`date.py` never imports, so every call actually dies with a `NameError`;
the evident intent `datetime.timedelta` is modelled.  Note the range
check uses the default era constant `MAXORDINAL` and `fromordinal` is
called without a `holocene` argument, regardless of the era of `self`. -/
def SymmetricDate.add (d : SymmetricDate) (days : ℤ) :
    Except String SymmetricDate :=
  let o := d.toordinal + days
  if 0 < o ∧ o ≤ MAXORDINAL then SymmetricDate.fromordinal o false
  else .error "result out of range"

/-- `__sub__` with a `timedelta` argument: `self + timedelta(-other.days)`. -/
def SymmetricDate.sub (d : SymmetricDate) (days : ℤ) :
    Except String SymmetricDate :=
  d.add (-days)

def isOkE {α : Type} : Except String α → Bool
  | .ok _ => true
  | .error _ => false

/-- The conjunction of field bounds that `_check_date_fields` enforces. -/
def validFields (y m d : ℤ) (hol : Bool) : Prop :=
  (1 ≤ y ∧ y ≤ (if hol then 19998 else 9998)) ∧ (1 ≤ m ∧ m ≤ 12) ∧
    1 ≤ d ∧ d ≤ dimPure y m hol

instance (y m d : ℤ) (hol : Bool) : Decidable (validFields y m d hol) := by
  unfold validFields
  infer_instance

/-- A host `datetime.time` value: clock fields, an optional UTC offset
(modelled as an integer key for the `tzinfo` object) and the `fold`
disambiguation bit. -/
structure Time where
  hour : ℤ
  minute : ℤ
  second : ℤ
  microsecond : ℤ
  tzinfo : Option ℤ
  fold : ℤ

deriving DecidableEq

/-- Modelled host constructor `datetime.time(hour, minute, second,
microsecond, tzinfo, fold=fold)`: validates the clock fields, stores
everything unchanged. -/
def Time.new (hour minute second microsecond : ℤ) (tzinfo : Option ℤ)
    (fold : ℤ) : Except String Time :=
  if ¬(0 ≤ hour ∧ hour ≤ 23) then .error "hour must be in 0..23"
  else if ¬(0 ≤ minute ∧ minute ≤ 59) then .error "minute must be in 0..59"
  else if ¬(0 ≤ second ∧ second ≤ 59) then .error "second must be in 0..59"
  else if ¬(0 ≤ microsecond ∧ microsecond ≤ 999999) then
    .error "microsecond must be in 0..999999"
  else if ¬(fold = 0 ∨ fold = 1) then .error "fold must be either 0 or 1"
  else .ok ⟨hour, minute, second, microsecond, tzinfo, fold⟩

/-- `SymmetricDateTime.__slots__`, reduced to its two owned values: the
`_date` (a `SymmetricDate`) and the `_time` (a host time); the remaining
slots are copies of their fields. -/
structure SymmetricDateTime where
  date : SymmetricDate
  time : Time

deriving DecidableEq

/-- `SymmetricDateTime.__new__` on the field path: note the source
builds `self._date = SymmetricDate(year, month, day)` with no
`holocene` argument (so the default era is forced), reads
`self._date.gregorian_date` (which raises when absent), and builds the
time value from the given clock fields. -/
def SymmetricDateTime.new (year month day hour minute second
    microsecond : ℤ) (tzinfo : Option ℤ) (fold : ℤ) :
    Except String SymmetricDateTime := do
  let date ← SymmetricDate.new year month day false
  let _ ← date.gregorian_date
  let time ← Time.new hour minute second microsecond tzinfo fold
  return ⟨date, time⟩

/-- `SymmetricDateTime.combine(date, time, tzinfo=True)`: `none` for the
third argument models the `True` sentinel (take the offset from the
time value); `some tz` models an explicitly passed offset. -/
def SymmetricDateTime.combine (date : SymmetricDate) (time : Time)
    (tzArg : Option (Option ℤ)) : Except String SymmetricDateTime :=
  let tzinfo := match tzArg with
    | none => time.tzinfo
    | some tz => tz
  SymmetricDateTime.new date.year date.month date.day time.hour
    time.minute time.second time.microsecond tzinfo time.fold

/-- Decode-then-encode composition (`encode(decode(o))`). -/
def roundTripOrdinal (o : ℤ) (hol : Bool) : Except String ℤ :=
  (_ordinal_to_year_month_day o hol).bind fun t =>
    _year_month_day_to_ordinal t.1 t.2.1 t.2.2.1 hol

/-! ### Theorems -/

/-- `ceildiv` agrees with the rational ceiling for natural divisors. -/
theorem ceildiv_eq_ceil (a : ℤ) (b : ℕ) :
    ceildiv a b = ⌈(a : ℚ) / (b : ℚ)⌉ := by
  unfold ceildiv
  rw [← Rat.floor_intCast_div_natCast (-a) b]
  push_cast
  rw [neg_div, Int.floor_neg, neg_neg]

/-- `_ordinal_to_year` agrees with the exact rational ceiling written in
the source. -/
theorem ordinal_to_year_eq_ceil (o : ℤ) :
    _ordinal_to_year o = ⌈((o - EPOCH : ℤ) : ℚ) / CYCLE_MEAN_YEAR⌉ := by
  unfold _ordinal_to_year CYCLE_MEAN_YEAR EPOCH
  rw [show (107016 : ℤ) = ((107016 : ℕ) : ℤ) by norm_num, ceildiv_eq_ceil]
  congr 1
  rw [div_eq_div_iff (by norm_num) (by norm_num)]
  push_cast
  ring

example : _year_month_day_to_ordinal 1 1 1 false = .ok 1 := by decide

example : _year_month_day_to_ordinal 9998 12 28 false = .ok 3651690 := by decide

example : _ordinal_to_year_month_day 1 false = .ok (1, 1, 1, 1, 1) := by decide

example : _ordinal_to_year_month_day 1 true = .error "month must be in 1..12" := by decide

example : _year_month_day_to_ordinal 10001 1 1 true = .ok 1 := by decide

example : _year_month_day_to_ordinal 1 1 1 true = .ok (-3652424) := by decide

/-! ### Arithmetic facts about the year mapping -/

/-- `_days_before_year` with the default era, unfolded. -/
theorem days_before_year_false (y : ℤ) :
    _days_before_year y false = 364 * (y - 1) + 7 * ((52 * (y - 1) + 146) / 293) := by
  simp [_days_before_year]

/-- `_first_day_year`, unfolded. -/
theorem first_day_year_eq (y : ℤ) :
    _first_day_year y = 364 * (y - 1) + 7 * ((52 * (y - 1) + 146) / 293) + 1 := by
  simp [_first_day_year, _days_before_year]

/-- The Holocene era merely shifts the year fed into `_days_before_year`. -/
theorem days_before_year_holocene (y : ℤ) :
    _days_before_year y true = _days_before_year (y - 10000) false := by
  simp [_days_before_year]
  omega

/-- The Holocene era merely shifts the year fed into `_is_leap`. -/
theorem is_leap_holocene (y : ℤ) :
    _is_leap y true = _is_leap (y - 10000) false := by
  simp [_is_leap]

/-- Year-length law at the level of `_days_before_year`. -/
theorem days_before_year_succ (y : ℤ) (hol : Bool) :
    _days_before_year (y + 1) hol = _days_before_year y hol + 364 + _is_leap y hol := by
  cases hol <;> simp [_days_before_year, _is_leap] <;> split_ifs <;> omega

/-- `_is_leap` only takes the values 0 and 7. -/
theorem is_leap_cases (y : ℤ) (hol : Bool) :
    _is_leap y hol = 0 ∨ _is_leap y hol = 7 := by
  cases hol <;> simp [_is_leap] <;> omega

/-- `_days_before_year` is monotone in the year (default era). -/
theorem days_before_year_mono {y y' : ℤ} (h : y ≤ y') :
    _days_before_year y false ≤ _days_before_year y' false := by
  simp only [days_before_year_false]
  have := Int.ediv_le_ediv (by norm_num : (0:ℤ) < 293)
    (show 52 * (y - 1) + 146 ≤ 52 * (y' - 1) + 146 by omega)
  omega

/-- Characterisation of the year estimate as a ceiling. -/
theorem est_bounds (o : ℤ) :
    293 * (o - 1) ≤ 107016 * _ordinal_to_year o ∧
    107016 * (_ordinal_to_year o - 1) < 293 * (o - 1) := by
  unfold _ordinal_to_year ceildiv EPOCH
  omega

/-- Division-bracket facts for the quotient appearing in
`_days_before_year`. -/
theorem yearQuot_bracket (v : ℤ) :
    0 ≤ 52 * (v - 1) + 146 - 293 * ((52 * (v - 1) + 146) / 293) ∧
    52 * (v - 1) + 146 - 293 * ((52 * (v - 1) + 146) / 293) ≤ 292 := by
  constructor
  · have := Int.emod_nonneg (52 * (v - 1) + 146) (show (293 : ℤ) ≠ 0 by norm_num)
    omega
  · have := Int.emod_lt_of_pos (52 * (v - 1) + 146) (show (0 : ℤ) < 293 by norm_num)
    omega

/-- The corrected year is the true year of the ordinal: its first day is
at most `o` and the next year starts strictly after `o`. -/
theorem decodeYearPair_brackets (o : ℤ) :
    (decodeYearPair o).2 = _first_day_year (decodeYearPair o).1 ∧
    _first_day_year (decodeYearPair o).1 ≤ o ∧
    o < _first_day_year ((decodeYearPair o).1 + 1) := by
  obtain ⟨hb1, hb2⟩ := est_bounds o

  have hF := first_day_year_eq
  have hmon : (52 * (_ordinal_to_year o - 1) + 146) / 293 ≤
      (52 * (_ordinal_to_year o + 1 - 1) + 146) / 293 :=
    Int.ediv_le_ediv (by norm_num) (by linarith)
  by_cases hA : _first_day_year (_ordinal_to_year o) < o
  · by_cases hB : 364 ≤ o - _first_day_year (_ordinal_to_year o)
    · by_cases hC : _first_day_year (_ordinal_to_year o + 1) ≤ o
      · -- year incremented to the estimate plus one
        have hp : decodeYearPair o =
            (_ordinal_to_year o + 1, _first_day_year (_ordinal_to_year o + 1)) := by
          simp only [decodeYearPair]
          rw [if_pos hA, if_pos hB, if_pos hC]
        rw [hp]
        dsimp only
        refine ⟨rfl, hC, ?_⟩
        obtain ⟨hq1, hq2⟩ := yearQuot_bracket (_ordinal_to_year o + 1 + 1)
        rw [hF]
        linarith
      · -- estimate kept, ordinal below the next year
        have hp : decodeYearPair o =
            (_ordinal_to_year o, _first_day_year (_ordinal_to_year o)) := by
          simp only [decodeYearPair]
          rw [if_pos hA, if_pos hB, if_neg hC]
        rw [hp]
        exact ⟨rfl, le_of_lt hA, not_le.mp hC⟩
    · -- estimate kept, ordinal within the first 363 days
      have hp : decodeYearPair o =
          (_ordinal_to_year o, _first_day_year (_ordinal_to_year o)) := by
        simp only [decodeYearPair]
        rw [if_pos hA, if_neg hB]
      rw [hp]
      refine ⟨rfl, le_of_lt hA, ?_⟩
      rw [hF] at hB ⊢
      rw [hF] at hA
      linarith
  · by_cases hB : o < _first_day_year (_ordinal_to_year o)
    · -- estimate decremented
      have hp : decodeYearPair o =
          (_ordinal_to_year o - 1, _first_day_year (_ordinal_to_year o - 1)) := by
        simp only [decodeYearPair]
        rw [if_neg hA, if_pos hB]
      rw [hp]
      dsimp only
      refine ⟨rfl, ?_, ?_⟩
      · obtain ⟨hq1, hq2⟩ := yearQuot_bracket (_ordinal_to_year o - 1)
        rw [hF]
        linarith
      · rw [sub_add_cancel]
        exact hB
    · -- ordinal is exactly the first day of the estimated year
      have hp : decodeYearPair o =
          (_ordinal_to_year o, _first_day_year (_ordinal_to_year o)) := by
        simp only [decodeYearPair]
        rw [if_neg hA, if_neg hB]
      rw [hp]
      refine ⟨rfl, not_lt.mp hB, ?_⟩
      rw [hF] at hA ⊢
      linarith

/-- `_first_day_year` is monotone. -/
theorem first_day_year_mono {y z : ℤ} (h : y ≤ z) :
    _first_day_year y ≤ _first_day_year z := by
  simp only [_first_day_year]
  exact add_le_add_right (days_before_year_mono h) 1

/-- Successive first days differ by the length of the year in between. -/
theorem first_day_year_succ (y : ℤ) :
    _first_day_year (y + 1) = _first_day_year y + 364 + _is_leap y false := by
  simp only [_first_day_year]
  rw [days_before_year_succ]
  ring

/-- For ordinals in the default-era range the corrected year lies in
`1..9998`. -/
theorem decodeYearPair_range (o : ℤ) (h1 : 1 ≤ o) (h2 : o ≤ 3651690) :
    1 ≤ (decodeYearPair o).1 ∧ (decodeYearPair o).1 ≤ 9998 := by
  obtain ⟨-, hlow, hhigh⟩ := decodeYearPair_brackets o
  constructor
  · by_contra h
    push_neg at h
    have hm : _first_day_year ((decodeYearPair o).1 + 1) ≤ _first_day_year 1 :=
      first_day_year_mono (by omega)
    have hF1 : _first_day_year 1 = 1 := by decide
    omega
  · by_contra h
    push_neg at h
    have hm : _first_day_year 9999 ≤ _first_day_year (decodeYearPair o).1 :=
      first_day_year_mono (by omega)
    have hF2 : _first_day_year 9999 = 3651691 := by decide
    omega

/-! ### The month/day stage of the decoder -/

theorem days_before_month_ok {month : ℤ} (h1 : 1 ≤ month) (h2 : month ≤ 12) :
    _days_before_month month = .ok (dbmVal month) := by
  simp [_days_before_month, dbmVal, h1, h2]

theorem days_in_month_ok (year : ℤ) {month : ℤ} (hol : Bool)
    (h1 : 1 ≤ month) (h2 : month ≤ 12) :
    _days_in_month year month hol = .ok (dimPure year month hol) := by
  simp only [_days_in_month, dimPure]
  rw [if_neg (by omega)]
  split_ifs <;> simp [dimVal]

/-- The default-era decoder, decomposed into its year and month stages;
both sides are definitionally the source computation. -/
theorem decode_default_decompose (o : ℤ) :
    _ordinal_to_year_month_day o false =
      match _days_before_month (decodeM o) with
      | .error e => .error e
      | .ok dbm =>
          .ok (decodeY o, decodeM o, decodeDiy o - dbm, decodeDiy o,
               ceildiv (decodeDiy o) 7) := rfl

/-- Correctness of the month/day chain on every day of a (possibly leap)
year, checked by evaluation over the 371 possible days. -/
theorem monthOf_spec : ∀ k : ℕ, k < 371 →
    (1 ≤ monthOf (1 + (k : ℤ)) ∧ monthOf (1 + (k : ℤ)) ≤ 12) ∧
    1 ≤ 1 + (k : ℤ) - dbmVal (monthOf (1 + (k : ℤ))) ∧
    (1 + (k : ℤ) ≤ 364 →
      1 + (k : ℤ) - dbmVal (monthOf (1 + (k : ℤ))) ≤ dimVal (monthOf (1 + (k : ℤ)))) ∧
    (365 ≤ 1 + (k : ℤ) →
      monthOf (1 + (k : ℤ)) = 12 ∧ 1 + (k : ℤ) - dbmVal (monthOf (1 + (k : ℤ))) ≤ 35) := by
  set_option maxRecDepth 100000 in decide

theorem except_bind_ok {α β : Type} (a : α) (f : α → Except String β) :
    (Except.ok a >>= f) = f a := rfl

/-- `_year_month_day_to_ordinal` on valid fields is their closed-form
ordinal. -/
theorem encode_ok {y m d : ℤ} (hol : Bool) (h1 : 1 ≤ m) (h2 : m ≤ 12)
    (h3 : 1 ≤ d) (h4 : d ≤ dimPure y m hol) :
    _year_month_day_to_ordinal y m d hol =
      .ok (_days_before_year y hol + dbmVal m + d) := by
  unfold _year_month_day_to_ordinal
  rw [if_neg (not_not_intro ⟨h1, h2⟩), days_in_month_ok y hol h1 h2,
      except_bind_ok, if_neg (not_not_intro ⟨h3, h4⟩), days_before_month_ok h1 h2,
      except_bind_ok]
  rfl

/-- Master lemma: on the default-era ordinal range the decoder returns
valid fields which re-encode to the same ordinal. -/
theorem decode_default_ok (o : ℤ) (h1 : 1 ≤ o) (h2 : o ≤ 3651690) :
    _ordinal_to_year_month_day o false =
      .ok (decodeY o, decodeM o, decodeD o, decodeDiy o, ceildiv (decodeDiy o) 7) ∧
    1 ≤ decodeY o ∧ decodeY o ≤ 9998 ∧
    1 ≤ decodeM o ∧ decodeM o ≤ 12 ∧
    1 ≤ decodeD o ∧ decodeD o ≤ dimPure (decodeY o) (decodeM o) false ∧
    _year_month_day_to_ordinal (decodeY o) (decodeM o) (decodeD o) false = .ok o := by
  have hfd : (decodeYearPair o).2 = _first_day_year (decodeY o) :=
    (decodeYearPair_brackets o).1
  have hlow : _first_day_year (decodeY o) ≤ o := (decodeYearPair_brackets o).2.1
  have hhigh : o < _first_day_year (decodeY o + 1) := (decodeYearPair_brackets o).2.2
  have hy1 : 1 ≤ decodeY o := (decodeYearPair_range o h1 h2).1
  have hy2 : decodeY o ≤ 9998 := (decodeYearPair_range o h1 h2).2
  have hsucc := first_day_year_succ (decodeY o)
  have hleapb : 0 ≤ _is_leap (decodeY o) false ∧ _is_leap (decodeY o) false ≤ 7 := by
    rcases is_leap_cases (decodeY o) false with h | h <;> simp [h]
  have hdiyEq : decodeDiy o = o - _first_day_year (decodeY o) + 1 := by
    unfold decodeDiy
    rw [hfd]
  have hdiy1 : 1 ≤ decodeDiy o := by omega
  have hdiy2 : decodeDiy o ≤ 364 + _is_leap (decodeY o) false := by omega
  have hklt : (decodeDiy o - 1).toNat < 371 := by omega
  have hkeq : 1 + ((decodeDiy o - 1).toNat : ℤ) = decodeDiy o := by omega
  have hspec := monthOf_spec (decodeDiy o - 1).toNat hklt
  rw [hkeq] at hspec
  obtain ⟨⟨hm1, hm2⟩, hd1, hd2, hd3⟩ := hspec
  have hm1' : 1 ≤ decodeM o := hm1
  have hm2' : decodeM o ≤ 12 := hm2
  have hd1' : 1 ≤ decodeD o := hd1
  have hd2' : decodeDiy o ≤ 364 → decodeD o ≤ dimVal (decodeM o) := hd2
  have hd3' : 365 ≤ decodeDiy o → decodeM o = 12 ∧ decodeD o ≤ 35 := hd3
  have hdim : decodeD o ≤ dimPure (decodeY o) (decodeM o) false := by
    by_cases h365 : 365 ≤ decodeDiy o
    · obtain ⟨hm12, hdle⟩ := hd3' h365
      have hlp : _is_leap (decodeY o) false = 7 := by
        rcases is_leap_cases (decodeY o) false with h | h
        · omega
        · exact h
      unfold dimPure
      rw [if_pos ⟨hm12, by rw [hlp]; norm_num⟩]
      exact hdle
    · push_neg at h365
      have hdd := hd2' (by omega)
      unfold dimPure
      split_ifs with hc
      · have h28 : dimVal (decodeM o) = 28 := by rw [hc.1]; decide
        omega
      · exact hdd
  refine ⟨?_, hy1, hy2, hm1', hm2', hd1', hdim, ?_⟩
  · rw [decode_default_decompose o, days_before_month_ok hm1' hm2']
    rfl
  · rw [encode_ok false hm1' hm2' hd1' hdim]
    have hFY : _first_day_year (decodeY o) = _days_before_year (decodeY o) false + 1 := rfl
    have hDD : decodeD o = decodeDiy o - dbmVal (decodeM o) := rfl
    congr 1
    omega

/-! ### The `SymmetricDate` value type -/

example : isOkE (SymmetricDate.new 2004 12 33 false) = true := by decide

example : isOkE (SymmetricDate.new 2004 12 36 false) = false := by decide

example : SymmetricDate.new 1970 1 4 false =
    .ok ⟨1970, 1, 4, 719163, false, 7, some 719163⟩ := by decide

example : SymmetricDate.new 11970 1 4 true =
    .ok ⟨11970, 1, 4, 719163, true, 7, some 719163⟩ := by decide

example : (SymmetricDate.new 9000 1 1 true).map SymmetricDate.gregorianDate =
    .ok none := by decide

theorem check_ok_of {y m d : ℤ} {hol : Bool} (h : validFields y m d hol) :
    _check_date_fields y m d hol = .ok (y, m, d) := by
  obtain ⟨hy, hm, hd⟩ := h
  unfold _check_date_fields
  rw [days_in_month_ok y hol hm.1 hm.2]
  rcases Bool.eq_false_or_eq_true hol with hh | hh <;> subst hh <;>
    simp_all [MINYEAR, MAXYEAR, HOLOCENE_MAXYEAR, except_bind_ok]

theorem except_err_of_not_ok {α : Type} {x : Except String α}
    (h : isOkE x = false) : ∃ e, x = .error e := by
  cases x with
  | ok a => simp [isOkE] at h
  | error e => exact ⟨e, rfl⟩

theorem check_err_of {y m d : ℤ} {hol : Bool} (h : ¬validFields y m d hol) :
    isOkE (_check_date_fields y m d hol) = false := by
  unfold validFields at h
  unfold _check_date_fields
  by_cases hm : 1 ≤ m ∧ m ≤ 12
  · rw [days_in_month_ok y hol hm.1 hm.2]
    rcases Bool.eq_false_or_eq_true hol with hh | hh <;> subst hh <;>
      simp_all [MINYEAR, MAXYEAR, HOLOCENE_MAXYEAR, except_bind_ok, isOkE] <;>
      split_ifs <;> simp_all [isOkE]
  · rcases Bool.eq_false_or_eq_true hol with hh | hh <;> subst hh <;>
      split_ifs <;> simp_all [isOkE]

/-- Construction with valid fields succeeds with exactly the cached
fields the source stores. -/
theorem new_ok_of {y m d : ℤ} {hol : Bool} (h : validFields y m d hol) :
    SymmetricDate.new y m d hol =
      .ok ⟨y, m, d, _days_before_year y hol + dbmVal m + d, hol,
           _is_leap y hol,
           if ¬hol then some (_days_before_year y hol + dbmVal m + d)
           else if y ≥ 10001 then some (_days_before_year y hol + dbmVal m + d)
           else none⟩ := by
  obtain ⟨hy, hm, hd⟩ := h
  unfold SymmetricDate.new
  rw [check_ok_of ⟨hy, hm, hd⟩, except_bind_ok,
      encode_ok hol hm.1 hm.2 hd.1 hd.2, except_bind_ok]
  rfl

theorem new_err_of {y m d : ℤ} {hol : Bool} (h : ¬validFields y m d hol) :
    isOkE (SymmetricDate.new y m d hol) = false := by
  obtain ⟨e, he⟩ := except_err_of_not_ok (check_err_of h)
  unfold SymmetricDate.new
  rw [he]
  rfl

/-- Construction succeeds exactly on valid fields. -/
theorem new_ok_iff (y m d : ℤ) (hol : Bool) :
    isOkE (SymmetricDate.new y m d hol) = true ↔ validFields y m d hol := by
  constructor
  · intro h
    by_contra hv
    rw [new_err_of hv] at h
    exact absurd h (by simp)
  · intro hv
    rw [new_ok_of hv]
    rfl

/-- The fields a successful construction stores. -/
theorem new_fields {y m d : ℤ} {hol : Bool} {dt : SymmetricDate}
    (h : SymmetricDate.new y m d hol = .ok dt) :
    dt.year = y ∧ dt.month = m ∧ dt.day = d ∧ dt.holocene = hol ∧
    dt.ordinalDate = _days_before_year y hol + dbmVal m + d ∧
    dt.isLeap = _is_leap y hol ∧
    dt.gregorianDate =
      (if ¬hol then some dt.ordinalDate
       else if y ≥ 10001 then some dt.ordinalDate else none) := by
  have hv : validFields y m d hol := by
    rw [← new_ok_iff y m d hol, h]
    rfl
  rw [new_ok_of hv] at h
  cases h
  refine ⟨rfl, rfl, rfl, rfl, rfl, rfl, rfl⟩

/-- `fromordinal` on the default era and a valid ordinal: the decoded
fields are stored and the cached ordinal is the input ordinal. -/
theorem fromordinal_default_ok (o : ℤ) (h1 : 1 ≤ o) (h2 : o ≤ 3651690) :
    SymmetricDate.fromordinal o false =
      .ok ⟨decodeY o, decodeM o, decodeD o, o, false,
           _is_leap (decodeY o) false, some o⟩ := by
  obtain ⟨hdec, hy1, hy2, hm1, hm2, hd1, hdim, henc⟩ := decode_default_ok o h1 h2
  have hv : validFields (decodeY o) (decodeM o) (decodeD o) false :=
    ⟨⟨hy1, by simpa using hy2⟩, ⟨hm1, hm2⟩, hd1, hdim⟩
  have hval : _days_before_year (decodeY o) false + dbmVal (decodeM o) +
      decodeD o = o := by
    have he := encode_ok false hm1 hm2 hd1 hdim
    rw [he] at henc
    exact Except.ok.inj henc
  unfold SymmetricDate.fromordinal
  rw [hdec, except_bind_ok, new_ok_of hv]
  simp [hval]

/-- `DAYS_BEFORE_MONTH` values are nonnegative on real months. -/
theorem dbm_nonneg {m : ℤ} (h1 : 1 ≤ m) (h2 : m ≤ 12) : 0 ≤ dbmVal m := by
  interval_cases m <;> decide

/-- A month's days-before plus its length never exceeds the year length. -/
theorem dbm_add_dim_le (y : ℤ) {m : ℤ} (hol : Bool) (h1 : 1 ≤ m) (h2 : m ≤ 12) :
    dbmVal m + dimPure y m hol ≤ 364 + _is_leap y hol := by
  unfold dimPure
  split_ifs with hc
  · obtain ⟨hm12, hl⟩ := hc
    rcases is_leap_cases y hol with h | h
    · exact absurd h hl
    · rw [hm12, h]
      decide
  · have hle : dbmVal m + dimVal m ≤ 364 := by interval_cases m <;> decide
    have hnn : 0 ≤ _is_leap y hol := by
      rcases is_leap_cases y hol with h | h <;> simp [h]
    omega

theorem days_before_year_nonneg {y : ℤ} (h : 1 ≤ y) :
    0 ≤ _days_before_year y false := by
  rw [days_before_year_false]
  have : 0 ≤ (52 * (y - 1) + 146) / 293 :=
    Int.ediv_nonneg (by omega) (by norm_num)
  omega

/-- The ordinal of a valid date is positive when the era-relative year
is positive. -/
theorem ordinal_pos {y m d : ℤ} {hol : Bool} (hv : validFields y m d hol)
    (hy : hol = false ∨ (hol = true ∧ 10001 ≤ y)) :
    1 ≤ _days_before_year y hol + dbmVal m + d := by
  obtain ⟨hyb, hm, hd⟩ := hv
  have hdbm := dbm_nonneg hm.1 hm.2
  rcases hy with hy | ⟨hy, hy2⟩
  · subst hy
    have := days_before_year_nonneg (show 1 ≤ y by
      rcases hyb with ⟨h, -⟩; exact h)
    omega
  · subst hy
    rw [days_before_year_holocene]
    have := days_before_year_nonneg (show 1 ≤ y - 10000 by omega)
    omega

/-- The ordinal of a valid Holocene date with year at most 10000 is at
most zero. -/
theorem ordinal_nonpos {y m d : ℤ} (hv : validFields y m d true)
    (hy : y ≤ 10000) :
    _days_before_year y true + dbmVal m + d ≤ 0 := by
  obtain ⟨hyb, hm, hd⟩ := hv
  have hsum := dbm_add_dim_le y true hm.1 hm.2
  have hsucc := days_before_year_succ y true
  have hshift := days_before_year_holocene (y + 1)
  have hmono := days_before_year_mono (show y + 1 - 10000 ≤ 1 by omega)
  have hD1 : _days_before_year 1 false = 0 := by decide
  omega

/-! ### The `SymmetricDateTime` composition (`date_time.py`) -/

/-- A successful host time construction stores exactly its arguments. -/
theorem time_new_fields {hh mm ss uu : ℤ} {tz : Option ℤ} {ff : ℤ}
    {t : Time} (h : Time.new hh mm ss uu tz ff = .ok t) :
    t = ⟨hh, mm, ss, uu, tz, ff⟩ ∧
    (0 ≤ hh ∧ hh ≤ 23) ∧ (0 ≤ mm ∧ mm ≤ 59) ∧ (0 ≤ ss ∧ ss ≤ 59) ∧
    (0 ≤ uu ∧ uu ≤ 999999) ∧ (ff = 0 ∨ ff = 1) := by
  unfold Time.new at h
  split_ifs at h with h1 h2 h3 h4 h5
  cases h
  exact ⟨rfl, h1, h2, h3, h4, h5⟩

/-! ### Claim theorems -/

/-- The leap rule spelled as the spec writes it. -/
theorem is_leap_rule (y : ℤ) (hol : Bool) :
    _is_leap y hol = 7 ↔
      (52 * (if hol then y - 10000 else y) + 146) % 293 < 52 := by
  cases hol <;> simp [_is_leap]

/-- C2: for every era-relative year `y`, in either era,
`days_before_year(y+1) - days_before_year(y)` is 364 or 371, and it is
371 exactly when `((52*y + 146) mod 293) < 52` on the era-relative year
(Holocene years first reduced by 10000), which is exactly `_is_leap`. -/
theorem C2_year_length_law (y : ℤ) (hol : Bool) :
    (_days_before_year (y + 1) hol - _days_before_year y hol = 364 ∨
     _days_before_year (y + 1) hol - _days_before_year y hol = 371) ∧
    (_days_before_year (y + 1) hol - _days_before_year y hol = 371 ↔
      (52 * (if hol then y - 10000 else y) + 146) % 293 < 52) ∧
    (_days_before_year (y + 1) hol - _days_before_year y hol = 371 ↔
      _is_leap y hol = 7) := by
  have hsucc := days_before_year_succ y hol
  have hrule := is_leap_rule y hol
  refine ⟨?_, ?_, ?_⟩
  · rcases is_leap_cases y hol with h | h <;> rw [hsucc, h] <;> omega
  · rw [← hrule]
    rcases is_leap_cases y hol with h | h <;> rw [hsucc, h] <;> omega
  · rcases is_leap_cases y hol with h | h <;> rw [hsucc, h] <;> omega

/-- C3: `encode(1,1,1) = 1`, `decode(1) = (1,1,1)` (with day-in-year 1
and week-in-year 1), `encode(9998,12,28) = 3651690` and `MAXORDINAL`
is that same value. -/
theorem C3_boundary_literals :
    _year_month_day_to_ordinal 1 1 1 false = .ok 1 ∧
    _ordinal_to_year_month_day 1 false = .ok (1, 1, 1, 1, 1) ∧
    _year_month_day_to_ordinal 9998 12 28 false = .ok 3651690 ∧
    MAXORDINAL = 3651690 :=
  ⟨by decide, by decide, by decide, rfl⟩

/-- C8: the monthly pattern 28,35,28 | 28,35,28 | 28,35,28 | 28,35,28
with December extended to 35 days in leap years, and the yearly total
371 in leap years and 364 otherwise. -/
theorem C8_days_in_month_pattern (y : ℤ) (hol : Bool) :
    _days_in_month y 1 hol = .ok 28 ∧ _days_in_month y 2 hol = .ok 35 ∧
    _days_in_month y 3 hol = .ok 28 ∧ _days_in_month y 4 hol = .ok 28 ∧
    _days_in_month y 5 hol = .ok 35 ∧ _days_in_month y 6 hol = .ok 28 ∧
    _days_in_month y 7 hol = .ok 28 ∧ _days_in_month y 8 hol = .ok 35 ∧
    _days_in_month y 9 hol = .ok 28 ∧ _days_in_month y 10 hol = .ok 28 ∧
    _days_in_month y 11 hol = .ok 35 ∧
    _days_in_month y 12 hol = .ok (if _is_leap y hol = 7 then 35 else 28) ∧
    (∑ m ∈ Finset.Icc (1 : ℤ) 12, (_days_in_month y m hol).toOption.getD 0) =
      (if _is_leap y hol = 7 then 371 else 364) := by
  have hsum : (∑ m ∈ Finset.Icc (1 : ℤ) 12,
      (_days_in_month y m hol).toOption.getD 0) =
      ∑ m ∈ Finset.Icc (1 : ℤ) 12, dimPure y m hol := by
    refine Finset.sum_congr rfl ?_
    intro m hm
    obtain ⟨hm1, hm2⟩ := Finset.mem_Icc.mp hm
    rw [days_in_month_ok y hol hm1 hm2]
    rfl
  have hmois : ∀ k : ℤ, 1 ≤ k → k ≤ 11 →
      _days_in_month y k hol = .ok (dimVal k) := by
    intro k hk1 hk2
    rw [days_in_month_ok y hol hk1 (by omega)]
    unfold dimPure
    rw [if_neg (by rintro ⟨h12, -⟩; omega)]
  have h12 : _days_in_month y 12 hol =
      .ok (if _is_leap y hol = 7 then 35 else 28) := by
    rw [days_in_month_ok y hol (by norm_num) (by norm_num)]
    unfold dimPure
    rcases is_leap_cases y hol with h | h <;> rw [h] <;> norm_num
    decide
  refine ⟨?_, ?_, ?_, ?_, ?_, ?_, ?_, ?_, ?_, ?_, ?_, h12, ?_⟩
  · exact (hmois 1 (by norm_num) (by norm_num)).trans (by decide)
  · exact (hmois 2 (by norm_num) (by norm_num)).trans (by decide)
  · exact (hmois 3 (by norm_num) (by norm_num)).trans (by decide)
  · exact (hmois 4 (by norm_num) (by norm_num)).trans (by decide)
  · exact (hmois 5 (by norm_num) (by norm_num)).trans (by decide)
  · exact (hmois 6 (by norm_num) (by norm_num)).trans (by decide)
  · exact (hmois 7 (by norm_num) (by norm_num)).trans (by decide)
  · exact (hmois 8 (by norm_num) (by norm_num)).trans (by decide)
  · exact (hmois 9 (by norm_num) (by norm_num)).trans (by decide)
  · exact (hmois 10 (by norm_num) (by norm_num)).trans (by decide)
  · exact (hmois 11 (by norm_num) (by norm_num)).trans (by decide)
  · rw [hsum]
    rcases is_leap_cases y hol with h | h
    · rw [if_neg (by rw [h]; norm_num)]
      have hpt : ∀ m ∈ Finset.Icc (1 : ℤ) 12, dimPure y m hol = dimVal m := by
        intro m hm
        unfold dimPure
        rw [if_neg (by rintro ⟨-, hl⟩; exact hl h)]
      rw [Finset.sum_congr rfl hpt]
      decide
    · rw [if_pos h]
      have hpt : ∀ m ∈ Finset.Icc (1 : ℤ) 12,
          dimPure y m hol = (fun k : ℤ => if k = 12 then 35 else dimVal k) m := by
        intro m hm
        show dimPure y m hol = if m = 12 then 35 else dimVal m
        unfold dimPure
        by_cases hm12 : m = 12
        · rw [if_pos ⟨hm12, by rw [h]; norm_num⟩, if_pos hm12]
        · rw [if_neg (by rintro ⟨h12x, -⟩; exact hm12 h12x), if_neg hm12]
      rw [Finset.sum_congr rfl hpt]
      decide

/-- C1: in the default era, decoding any ordinal in `[1, MAXORDINAL]`
and re-encoding gives the ordinal back; in the Holocene era the decoder
is broken — already at ordinal 1 its month computation leaves `1..12`
and it dies on `_days_before_month`'s assertion instead of producing
`(10001, 1, 1)` as the round-trip property requires. -/
theorem C1_roundtrip (o : ℤ) (h1 : 1 ≤ o) (h2 : o ≤ MAXORDINAL) :
    roundTripOrdinal o false = .ok o ∧
    _ordinal_to_year_month_day 1 true = .error "month must be in 1..12" := by
  constructor
  · obtain ⟨hdec, -, -, -, -, -, -, henc⟩ := decode_default_ok o h1 h2
    unfold roundTripOrdinal
    rw [hdec]
    exact henc
  · decide

theorem C1_witness :
    (1 ≤ (719163 : ℤ) ∧ (719163 : ℤ) ≤ MAXORDINAL) ∧
    roundTripOrdinal 719163 false = .ok 719163 :=
  ⟨⟨by decide, by decide⟩, (C1_roundtrip 719163 (by decide) (by decide)).1⟩

/-- C4: construction succeeds exactly when the year is within the era
bounds, the month within `1..12` and the day within
`1..days_in_month`; on success the given fields are stored; and the two
boundary examples behave as claimed. -/
theorem C4_construction_validation :
    (∀ (y m d : ℤ) (hol : Bool),
      isOkE (SymmetricDate.new y m d hol) = true ↔
        ((1 ≤ y ∧ y ≤ (if hol then 19998 else 9998)) ∧ (1 ≤ m ∧ m ≤ 12) ∧
         1 ≤ d ∧ d ≤ dimPure y m hol)) ∧
    (∀ (y m d : ℤ) (hol : Bool) (dt : SymmetricDate),
      SymmetricDate.new y m d hol = .ok dt →
        dt.year = y ∧ dt.month = m ∧ dt.day = d ∧ dt.holocene = hol) ∧
    isOkE (SymmetricDate.new 2004 12 33 false) = true ∧
    isOkE (SymmetricDate.new 2004 12 36 false) = false := by
  refine ⟨?_, ?_, by decide, by decide⟩
  · intro y m d hol
    exact new_ok_iff y m d hol
  · intro y m d hol dt h
    obtain ⟨h1, h2, h3, h4, -, -, -⟩ := new_fields h
    exact ⟨h1, h2, h3, h4⟩

theorem C4_witness :
    SymmetricDate.new 2004 12 33 false =
      .ok ⟨2004, 12, 33, 731946, false, 7, some 731946⟩ ∧
    ((⟨2004, 12, 33, 731946, false, 7, some 731946⟩ : SymmetricDate).year =
        2004 ∧
      (⟨2004, 12, 33, 731946, false, 7, some 731946⟩ : SymmetricDate).month =
        12 ∧
      (⟨2004, 12, 33, 731946, false, 7, some 731946⟩ : SymmetricDate).day =
        33 ∧
      (⟨2004, 12, 33, 731946, false, 7, some 731946⟩ : SymmetricDate).holocene =
        false) :=
  ⟨by decide,
   C4_construction_validation.2.1 2004 12 33 false _ (by decide)⟩

/-- C5: with the `timedelta` name repaired to `datetime.timedelta`
(`date.py` never imports it, so as written every call raises
`NameError`), adding `n` days to a constructed date yields a date whose
ordinal is the old ordinal plus `n` when that lies in
`[1, MAXORDINAL]`, raises `OverflowError` (the spec's RangeError)
otherwise, subtraction is addition of the negation, and adding one day
to the decoded maximal ordinal 3651690 is an error. -/
theorem C5_add_sub_range (y m d n : ℤ) (hol : Bool) (dt : SymmetricDate)
    (h : SymmetricDate.new y m d hol = .ok dt) :
    (1 ≤ dt.ordinalDate + n ∧ dt.ordinalDate + n ≤ MAXORDINAL →
      ∃ dt2, dt.add n = .ok dt2 ∧ dt2.ordinalDate = dt.ordinalDate + n) ∧
    (dt.ordinalDate + n < 1 ∨ MAXORDINAL < dt.ordinalDate + n →
      dt.add n = .error "result out of range") ∧
    dt.sub n = dt.add (-n) ∧
    ((SymmetricDate.fromordinal 3651690 false).bind fun mx => mx.add 1) =
      .error "result out of range" := by
  refine ⟨?_, ?_, rfl, by decide⟩
  · rintro ⟨ha, hb⟩
    simp only [SymmetricDate.add, SymmetricDate.toordinal]
    rw [if_pos ⟨by omega, hb⟩]
    exact ⟨_, fromordinal_default_ok (dt.ordinalDate + n) ha hb, rfl⟩
  · intro hout
    simp only [SymmetricDate.add, SymmetricDate.toordinal]
    rw [if_neg (by omega)]

theorem C5_witness :
    SymmetricDate.new 1 1 1 false = .ok ⟨1, 1, 1, 1, false, 0, some 1⟩ ∧
    ∃ dt2, (⟨1, 1, 1, 1, false, 0, some 1⟩ : SymmetricDate).add 1 = .ok dt2 ∧
      dt2.ordinalDate =
        (⟨1, 1, 1, 1, false, 0, some 1⟩ : SymmetricDate).ordinalDate + 1 :=
  ⟨by decide,
   (C5_add_sub_range 1 1 1 1 false _ (by decide)).1 ⟨by decide, by decide⟩⟩

/-- C10: with the `timedelta` name repaired as in C5, day arithmetic on
a Holocene date does not preserve the era: the sum ordinal is decoded
and re-validated in the default era (`fromordinal(o)` with no
`holocene` argument), so the result carries `holocene = False` and the
default-era decoded fields; and the range check compares against the
default-era `MAXORDINAL` 3651690 even though `self` is Holocene. -/
theorem C10_add_drops_holocene (y m d n : ℤ) (dt : SymmetricDate)
    (h : SymmetricDate.new y m d true = .ok dt)
    (h1 : 1 ≤ dt.ordinalDate + n) (h2 : dt.ordinalDate + n ≤ 3651690) :
    dt.holocene = true ∧
    dt.add n =
      .ok ⟨decodeY (dt.ordinalDate + n), decodeM (dt.ordinalDate + n),
           decodeD (dt.ordinalDate + n), dt.ordinalDate + n, false,
           _is_leap (decodeY (dt.ordinalDate + n)) false,
           some (dt.ordinalDate + n)⟩ ∧
    (∀ k : ℤ, 3651690 < dt.ordinalDate + k →
      dt.add k = .error "result out of range") := by
  refine ⟨(new_fields h).2.2.2.1, ?_, ?_⟩
  · simp only [SymmetricDate.add, SymmetricDate.toordinal]
    rw [if_pos ⟨by omega, h2⟩]
    exact fromordinal_default_ok _ h1 h2
  · intro k hk
    simp only [SymmetricDate.add, SymmetricDate.toordinal]
    have hM : MAXORDINAL = 3651690 := rfl
    rw [if_neg (by omega)]

theorem C10_witness :
    SymmetricDate.new 12000 1 1 true =
      .ok ⟨12000, 1, 1, 730122, true, 0, some 730122⟩ ∧
    (⟨12000, 1, 1, 730122, true, 0, some 730122⟩ : SymmetricDate).add 1 =
      .ok ⟨decodeY 730123, decodeM 730123, decodeD 730123, 730123, false,
           _is_leap (decodeY 730123) false, some 730123⟩ :=
  ⟨by decide,
   (C10_add_drops_holocene 12000 1 1 1 _ (by decide) (by decide)
     (by decide)).2.1⟩

/-- The cached host date of a constructed date: present with the date's
own ordinal exactly when the ordinal is positive (default era, or
Holocene year at least 10001), absent with a nonpositive ordinal
otherwise. -/
theorem greg_dichotomy {y m d : ℤ} {hol : Bool} {dt : SymmetricDate}
    (h : SymmetricDate.new y m d hol = .ok dt) :
    (dt.gregorianDate = some dt.ordinalDate ∧ 1 ≤ dt.ordinalDate) ∨
    (dt.gregorianDate = none ∧ dt.ordinalDate ≤ 0) := by
  have hv : validFields y m d hol := (new_ok_iff y m d hol).mp (by rw [h]; rfl)
  obtain ⟨-, -, -, -, hord, -, hgreg⟩ := new_fields h
  cases hol with
  | false =>
    left
    refine ⟨by rw [hgreg]; simp, ?_⟩
    rw [hord]
    exact ordinal_pos hv (Or.inl rfl)
  | true =>
    by_cases hy : 10001 ≤ y
    · left
      refine ⟨by rw [hgreg]; simp [hy], ?_⟩
      rw [hord]
      exact ordinal_pos hv (Or.inr ⟨rfl, hy⟩)
    · right
      refine ⟨by rw [hgreg]; simp [hy], ?_⟩
      rw [hord]
      exact ordinal_nonpos hv (by omega)

/-- C6: for any two constructed dates, in any eras, equality and the
three-way comparison are determined by the cached ordinals alone, and
equal ordinals give equal hash keys. -/
theorem C6_ordinal_sole_key (y1 m1 d1 : ℤ) (e1 : Bool) (y2 m2 d2 : ℤ)
    (e2 : Bool) (a b : SymmetricDate)
    (ha : SymmetricDate.new y1 m1 d1 e1 = .ok a)
    (hb : SymmetricDate.new y2 m2 d2 e2 = .ok b) :
    (a.equals b = true ↔ a.ordinalDate = b.ordinalDate) ∧
    (a._cmp b = 0 ↔ a.ordinalDate = b.ordinalDate) ∧
    (a._cmp b = 1 ↔ b.ordinalDate < a.ordinalDate) ∧
    (a._cmp b = -1 ↔ a.ordinalDate < b.ordinalDate) ∧
    (a.ordinalDate = b.ordinalDate → a.hashKey = b.hashKey) := by
  have h0 : a.ordinalDate = b.ordinalDate → a._cmp b = 0 := by
    intro hx
    unfold SymmetricDate._cmp SymmetricDate.toordinal
    rw [if_pos hx]
  have hgt : b.ordinalDate < a.ordinalDate → a._cmp b = 1 := by
    intro hx
    unfold SymmetricDate._cmp SymmetricDate.toordinal
    rw [if_neg (by omega), if_pos hx]
  have hlt : a.ordinalDate < b.ordinalDate → a._cmp b = -1 := by
    intro hx
    unfold SymmetricDate._cmp SymmetricDate.toordinal
    rw [if_neg (by omega), if_neg (by omega)]
  have hcmp0 : a._cmp b = 0 ↔ a.ordinalDate = b.ordinalDate := by
    constructor
    · intro hc
      rcases lt_trichotomy a.ordinalDate b.ordinalDate with hx | hx | hx
      · rw [hlt hx] at hc
        exact absurd hc (by norm_num)
      · exact hx
      · rw [hgt hx] at hc
        exact absurd hc (by norm_num)
    · exact h0
  refine ⟨?_, hcmp0, ?_, ?_, ?_⟩
  · unfold SymmetricDate.equals
    rw [beq_iff_eq]
    exact ⟨fun hx => hcmp0.mp hx, fun hx => hcmp0.mpr hx⟩
  · constructor
    · intro hc
      rcases lt_trichotomy a.ordinalDate b.ordinalDate with hx | hx | hx
      · rw [hlt hx] at hc
        exact absurd hc (by norm_num)
      · rw [h0 hx] at hc
        exact absurd hc (by norm_num)
      · exact hx
    · exact hgt
  · constructor
    · intro hc
      rcases lt_trichotomy a.ordinalDate b.ordinalDate with hx | hx | hx
      · exact hx
      · rw [h0 hx] at hc
        exact absurd hc (by norm_num)
      · rw [hgt hx] at hc
        exact absurd hc (by norm_num)
    · exact hlt
  · intro hord
    rcases greg_dichotomy ha with ⟨hg1, hp1⟩ | ⟨hg1, hp1⟩ <;>
      rcases greg_dichotomy hb with ⟨hg2, hp2⟩ | ⟨hg2, hp2⟩
    · unfold SymmetricDate.hashKey SymmetricDate.gregorian_date
      rw [hg1, hg2, hord]
    · omega
    · omega
    · unfold SymmetricDate.hashKey SymmetricDate.gregorian_date
      rw [hg1, hg2]

theorem C6_witness :
    (⟨1970, 1, 4, 719163, false, 7, some 719163⟩ : SymmetricDate).hashKey =
      (⟨11970, 1, 4, 719163, true, 7, some 719163⟩ : SymmetricDate).hashKey ∧
    (⟨1970, 1, 4, 719163, false, 7, some 719163⟩ : SymmetricDate).equals
      ⟨11970, 1, 4, 719163, true, 7, some 719163⟩ = true :=
  ⟨(C6_ordinal_sole_key 1970 1 4 false 11970 1 4 true
      ⟨1970, 1, 4, 719163, false, 7, some 719163⟩
      ⟨11970, 1, 4, 719163, true, 7, some 719163⟩
      (by decide) (by decide)).2.2.2.2 (by decide),
   (C6_ordinal_sole_key 1970 1 4 false 11970 1 4 true
      ⟨1970, 1, 4, 719163, false, 7, some 719163⟩
      ⟨11970, 1, 4, 719163, true, 7, some 719163⟩
      (by decide) (by decide)).1.mpr (by decide)⟩

/-- C7: a Holocene date with year at most 10000 constructs successfully
but carries no host Gregorian date, and reading `gregorian_date` fails
with the host-range error (distinct from the construction-time
validation errors); with year at least 10001 the host mapping is
available. -/
theorem C7_holocene_host_boundary (y m d : ℤ) :
    (1 ≤ y → y ≤ 10000 → 1 ≤ m → m ≤ 12 → 1 ≤ d → d ≤ dimPure y m true →
      ∃ dt, SymmetricDate.new y m d true = .ok dt ∧
        dt.gregorianDate = none ∧
        dt.gregorian_date =
          .error "Holocene date outside Python date range") ∧
    (10001 ≤ y → y ≤ 19998 → 1 ≤ m → m ≤ 12 → 1 ≤ d → d ≤ dimPure y m true →
      ∃ dt, SymmetricDate.new y m d true = .ok dt ∧
        dt.gregorianDate = some dt.ordinalDate ∧
        dt.gregorian_date = .ok dt.ordinalDate) := by
  constructor
  · intro hy1 hy2 hm1 hm2 hd1 hd2
    have hv : validFields y m d true :=
      ⟨⟨hy1, by simp only [if_true]; omega⟩, ⟨hm1, hm2⟩, hd1, hd2⟩
    have hdt := new_ok_of hv
    refine ⟨_, hdt, ?_, ?_⟩
    · obtain ⟨-, -, -, -, -, -, hgreg⟩ := new_fields hdt
      rw [hgreg]
      simp [show ¬(10001 ≤ y) by omega]
    · obtain ⟨-, -, -, -, -, -, hgreg⟩ := new_fields hdt
      unfold SymmetricDate.gregorian_date
      rw [hgreg]
      simp [show ¬(10001 ≤ y) by omega]
  · intro hy1 hy2 hm1 hm2 hd1 hd2
    have hv : validFields y m d true :=
      ⟨⟨by omega, by simp only [if_true]; omega⟩, ⟨hm1, hm2⟩, hd1, hd2⟩
    have hdt := new_ok_of hv
    have hgreg := (new_fields hdt).2.2.2.2.2.2
    refine ⟨_, hdt, ?_, ?_⟩
    · rw [hgreg]
      simp [hy1]
    · unfold SymmetricDate.gregorian_date
      rw [hgreg]
      simp [hy1]

theorem C7_witness :
    (∃ dt, SymmetricDate.new 9000 1 1 true = .ok dt ∧
      dt.gregorianDate = none ∧
      dt.gregorian_date = .error "Holocene date outside Python date range") ∧
    (∃ dt, SymmetricDate.new 12000 1 1 true = .ok dt ∧
      dt.gregorianDate = some dt.ordinalDate ∧
      dt.gregorian_date = .ok dt.ordinalDate) :=
  ⟨(C7_holocene_host_boundary 9000 1 1).1 (by decide) (by decide) (by decide)
      (by decide) (by decide) (by decide),
   (C7_holocene_host_boundary 12000 1 1).2 (by decide) (by decide) (by decide)
      (by decide) (by decide) (by decide)⟩

/-- C9 counterexample: the claim fails as stated on Holocene inputs.
`SymmetricDateTime.__new__` builds its date as
`SymmetricDate(year, month, day)` with no `holocene` argument.  Two
failure modes, one per conjunct: the valid Holocene date 12000-01-01 HE
is rejected by the default-era year validation instead of being
composed, and the valid Holocene date 9000-01-01 HE combines
successfully but reads back an era-swapped default-era `.date` —
`holocene` flag `false` and ordinal 3286816, unequal to the composed
date's `true` and -365609 — rather than the originally composed date. -/
theorem C9_counterexample :
    ((SymmetricDate.new 12000 1 1 true).bind fun dh =>
      SymmetricDateTime.combine dh ⟨0, 0, 0, 0, none, 0⟩ none) =
      .error "Year must be in 1..9998" ∧
    ((SymmetricDate.new 9000 1 1 true).bind fun dh =>
      (SymmetricDateTime.combine dh ⟨0, 0, 0, 0, none, 0⟩ none).map
        fun dtm => (dtm.date == dh, dtm.date.holocene,
                    dtm.date.ordinalDate, dh.ordinalDate)) =
      .ok (false, false, 3286816, -365609) := by
  exact ⟨by decide, by decide⟩

/-- C9 (amended to default-era dates): combining a constructed
default-era date with a host time value returns a date-time whose
`.date` is that very date and whose `.time` carries the composed clock
fields, the resolved offset (the time's own offset when the `tzinfo`
argument is left at its `True` default, the explicit offset otherwise)
and the fold bit, with no re-normalization on read. -/
theorem C9_combine_decompose (y m d hh mm ss uu : ℤ) (tz : Option ℤ)
    (ff : ℤ) (date : SymmetricDate) (t : Time)
    (hd : SymmetricDate.new y m d false = .ok date)
    (ht : Time.new hh mm ss uu tz ff = .ok t) :
    SymmetricDateTime.combine date t none = .ok ⟨date, t⟩ ∧
    (∀ tz2 : Option ℤ, SymmetricDateTime.combine date t (some tz2) =
      .ok ⟨date, ⟨t.hour, t.minute, t.second, t.microsecond, tz2, t.fold⟩⟩) ∧
    (∀ dtm : SymmetricDateTime,
      SymmetricDateTime.combine date t none = .ok dtm →
        dtm.date = date ∧ dtm.time = t) := by
  obtain ⟨hteq, hhb, hmb, hsb, hub, hfb⟩ := time_new_fields ht
  obtain ⟨hy, hm, hdd, -, -, -, hgreg⟩ := new_fields hd
  have hgok : date.gregorian_date = .ok date.ordinalDate := by
    unfold SymmetricDate.gregorian_date
    rw [hgreg]
    simp
  have hre : SymmetricDate.new date.year date.month date.day false =
      .ok date := by
    rw [hy, hm, hdd]
    exact hd
  have hcore : ∀ tzv : Option ℤ,
      SymmetricDateTime.new date.year date.month date.day t.hour t.minute
        t.second t.microsecond tzv t.fold =
        .ok ⟨date, ⟨t.hour, t.minute, t.second, t.microsecond, tzv,
                    t.fold⟩⟩ := by
    intro tzv
    have htv : Time.new t.hour t.minute t.second t.microsecond tzv t.fold =
        .ok ⟨t.hour, t.minute, t.second, t.microsecond, tzv, t.fold⟩ := by
      subst hteq
      unfold Time.new
      rw [if_neg (not_not_intro hhb), if_neg (not_not_intro hmb),
          if_neg (not_not_intro hsb), if_neg (not_not_intro hub),
          if_neg (not_not_intro hfb)]
    unfold SymmetricDateTime.new
    rw [hre, except_bind_ok, hgok, except_bind_ok, htv, except_bind_ok]
    rfl
  have hmain : SymmetricDateTime.combine date t none = .ok ⟨date, t⟩ := by
    unfold SymmetricDateTime.combine
    exact hcore t.tzinfo
  refine ⟨hmain, ?_, ?_⟩
  · intro tz2
    unfold SymmetricDateTime.combine
    exact hcore tz2
  · intro dtm hdtm
    rw [hmain] at hdtm
    cases hdtm
    exact ⟨rfl, rfl⟩

theorem C9_witness :
    SymmetricDateTime.combine ⟨1970, 1, 4, 719163, false, 7, some 719163⟩
      ⟨12, 30, 5, 0, some 120, 0⟩ none =
      .ok ⟨⟨1970, 1, 4, 719163, false, 7, some 719163⟩,
           ⟨12, 30, 5, 0, some 120, 0⟩⟩ :=
  (C9_combine_decompose 1970 1 4 12 30 5 0 (some 120) 0
    ⟨1970, 1, 4, 719163, false, 7, some 719163⟩ ⟨12, 30, 5, 0, some 120, 0⟩
    (by decide) (by decide)).1
